import Mathlib

/-!
Shallow embedding of the retrieval-and-evaluation pipeline of this repository
(server/processors/documentProcessor.js, server/vector/vectorStore.js,
server/rag/ragPipeline.js, server/evaluation/metrics.js), together with proofs
deciding the frozen claims about it.

Modeling conventions:
* JavaScript strings are modeled as `List Char` (`Str`).  `String.prototype.split`
  with a literal separator is `splitOnSep`, splitting on a regex character class
  (`/\s+/`, `/[.!?]+/`) is `splitRuns`, `trim` is `trimStr`, `toLowerCase` is
  `lowerStr` (the code only ever feeds it ASCII), `includes` is `strIncludes`
  for substrings and `List.contains` for array membership.
* JavaScript numbers are modeled as `ℝ`: every finite IEEE double is rational,
  and the code's algorithms (dot products, `Math.sqrt`, averages) are specified
  by their exact real arithmetic.  `Math.sqrt` is `Real.sqrt`.  The single place
  where the code can divide zero by zero (`getPerformanceReport` on an empty
  history, producing `NaN`) is modeled with `jsDiv : ℝ → ℝ → Option ℝ`, `none`
  standing for the non-finite IEEE result.
* `Array.prototype.sort` is required by the ECMAScript specification to be
  stable, so it is modeled by the stable `List.insertionSort`.
* JavaScript truthiness tests on numbers (`x ? _ : _`, `if (x)`, `x || d`) are
  modeled as `x ≠ 0` tests, on strings as non-emptiness, on possibly-absent
  object fields as `Option` patterns.
-/

/-- JavaScript strings, modeled as lists of characters. -/
abbrev Str := List Char

/-- Coercion from Lean string literals into the `Str` model. -/
def S (s : String) : Str := s.toList

/-- JS `String.prototype.toLowerCase` (the sources only apply it to ASCII). -/
def lowerStr (s : Str) : Str := s.map Char.toLower

/-- JS `String.prototype.trim`: drop leading and trailing whitespace. -/
def trimStr (s : Str) : Str :=
  ((s.dropWhile Char.isWhitespace).reverse.dropWhile Char.isWhitespace).reverse

/-- Fuel-driven worker for `splitRuns`.  A maximal run of characters satisfying
`p` acts as one separator, exactly like JS `split` on a one-character-class
regex such as `/\s+/` or `/[.!?]+/` (empty pieces appear at the ends when the
string starts or ends with a separator run, and for the empty string the result
is `[[]]`). -/
def splitRunsGo (p : Char → Bool) : ℕ → Str → Str → List Str
  | _, [], acc => [acc.reverse]
  | 0, s, acc => [acc.reverse ++ s]
  | fuel + 1, c :: rest, acc =>
    if p c then acc.reverse :: splitRunsGo p fuel (rest.dropWhile p) []
    else splitRunsGo p fuel rest (c :: acc)

/-- JS `str.split(regex)` for a one-character-class regex repeated with `+`. -/
def splitRuns (p : Char → Bool) (s : Str) : List Str :=
  splitRunsGo p s.length s []

/-- JS `str.split(/\s+/)`. -/
def splitWS (s : Str) : List Str := splitRuns Char.isWhitespace s

/-- Fuel-driven worker for `splitOnSep`: scan left to right, cutting at each
leftmost non-overlapping occurrence of the (non-empty) separator, exactly like
JS `String.prototype.split` with a string separator. -/
def splitSepGo (sep : Str) : ℕ → Str → Str → List Str
  | _, [], acc => [acc.reverse]
  | 0, s, acc => [acc.reverse ++ s]
  | fuel + 1, c :: rest, acc =>
    if sep ≠ [] ∧ sep.isPrefixOf (c :: rest) then
      acc.reverse :: splitSepGo sep fuel ((c :: rest).drop sep.length) []
    else splitSepGo sep fuel rest (c :: acc)

/-- JS `str.split(sep)` for a literal string separator. -/
def splitOnSep (sep s : Str) : List Str :=
  splitSepGo sep s.length s []

/-- JS `Array.prototype.join(sep)`. -/
def joinSep (sep : Str) (l : List Str) : Str := List.intercalate sep l

/-! ## DocumentProcessor.createChunks (documentProcessor.js)

Chunk `metadata` in the source is `{ sourceType, chunkType }` for `pdf` chunks
and additionally carries `visualElements`/`charts` for `image` chunks; the
visual-element payloads are opaque pass-through data no claim touches, so the
metadata model keeps only the two string fields. -/

/-- Chunk metadata: the `{ sourceType, chunkType }` object built by
`createChunks`. -/
structure ChunkMeta where
  sourceType : Str
  chunkType : Str
deriving DecidableEq

/-- One retrievable chunk, as produced by `DocumentProcessor.createChunks`. -/
structure Chunk where
  id : ℕ
  content : Str
  type : Str
  metadata : ChunkMeta
deriving DecidableEq

/-- Loop body of the long-paragraph sentence accumulation in `createChunks`
(`for (const sentence of sentences) ...`).  State: chunks emitted so far, the
`currentChunk` buffer, and the next chunk id. -/
def sentStep (acc : List Chunk × Str × ℕ) (s : Str) : List Chunk × Str × ℕ :=
  let (cs, cur, nid) := acc
  if 500 < cur.length + s.length then
    if cur ≠ [] then
      (cs ++ [⟨nid, trimStr cur, S ("paragraph"), ⟨S ("pdf"), S ("paragraph")⟩⟩], s, nid + 1)
    else (cs, s, nid)
  else (cs, (if cur = [] then s else cur ++ S (". ") ++ s), nid)

/-- Process one paragraph of `pdf`-kind text (`createChunks`, pdf branch):
paragraphs longer than 500 characters are re-split on `". "` and accumulated
sentence by sentence; shorter ones become a single chunk verbatim.  Returns the
produced chunks and the next chunk id. -/
def processParagraph (p : Str) (nid : ℕ) : List Chunk × ℕ :=
  if 500 < p.length then
    let sentences := splitOnSep (S (". ")) p
    let r := sentences.foldl sentStep ([], [], nid)
    if r.2.1 ≠ [] then
      (r.1 ++ [⟨r.2.2, trimStr r.2.1, S ("paragraph"), ⟨S ("pdf"), S ("paragraph")⟩⟩], r.2.2 + 1)
    else (r.1, r.2.2)
  else ([⟨nid, p, S ("paragraph"), ⟨S ("pdf"), S ("paragraph")⟩⟩], nid + 1)

/-- The non-blank paragraphs of `pdf`-kind text:
`text.split('\n\n').filter(p => p.trim().length > 0)`. -/
def pdfParagraphs (text : Str) : List Str :=
  (splitOnSep (S ("\n\n")) text).filter (fun p => decide (0 < (trimStr p).length))

/-- Fuel-driven grouping of sentences into windows of 3 (`for (i = 0; i <
sentences.length; i += 3)` in the image branch). -/
def group3Go : ℕ → List Str → List (List Str)
  | _, [] => []
  | 0, l => [l]
  | fuel + 1, l => l.take 3 :: group3Go fuel (l.drop 3)

/-- Group a sentence list into consecutive windows of 3. -/
def group3 (l : List Str) : List (List Str) := group3Go l.length l

/-- `DocumentProcessor.createChunks(text, sourceType)`.  The `image` branch's
chunk metadata drops the `visualElements`/`charts` payload (see `ChunkMeta`);
everything else follows the source line by line. -/
def createChunks (text : Str) (sourceType : Str) : List Chunk :=
  if sourceType = S ("pdf") then
    (pdfParagraphs text).foldl
      (fun acc p =>
        let r := processParagraph p acc.2
        (acc.1 ++ r.1, r.2))
      (([] : List Chunk), 1) |>.1
  else if sourceType = S ("image") then
    let sentences := (splitOnSep (S (". ")) text).filter
      (fun s => decide (0 < (trimStr s).length))
    ((group3 sentences).foldl
      (fun acc g =>
        (acc.1 ++ [⟨acc.2, joinSep (S (". ")) g, S ("visual_context"),
          ⟨S ("image"), S ("visual_context")⟩⟩], acc.2 + 1))
      (([] : List Chunk), 1)).1
  else []

/-! ## RAGPipeline query preprocessing (ragPipeline.js)

`preprocessQuery` also runs `extractEntities`; the entity list is returned to
the caller but never read by retrieval, reranking, generation, or any claim,
and its regex matchers are the only part of the file needing a general regex
engine, so the entity field is omitted from the model. -/

/-- JS `hay.includes(needle)`: substring containment. -/
def strIncludes (hay needle : Str) : Bool :=
  hay.tails.any (fun t => needle.isPrefixOf t)

/-- Does any of the literal alternatives occur (case already folded) as a
substring?  This is exactly `/lit1|lit2|.../i.test(q)` for literal
alternatives. -/
def anyContains (hay : Str) (pats : List Str) : Bool :=
  pats.any (fun p => strIncludes hay p)

/-- `RAGPipeline.classifyIntent`: first matching pattern in the fixed object
order wins, else `general`. -/
def classifyIntent (q : Str) : Str :=
  let lq := lowerStr q
  if anyContains lq [S ("what is"), S ("define"), S ("explain"), S ("tell me about")] then
    S ("factual")
  else if anyContains lq [S ("compare"), S ("versus"), S ("vs"), S ("difference between")] then
    S ("comparison")
  else if anyContains lq [S ("how to"), S ("steps"), S ("process"), S ("procedure")] then
    S ("procedural")
  else if anyContains lq [S ("analyze"), S ("analysis"), S ("insights"), S ("trends")] then
    S ("analytical")
  else if anyContains lq [S ("statistics"), S ("numbers"), S ("data"), S ("metrics")] then
    S ("numerical")
  else if anyContains lq [S ("chart"), S ("graph"), S ("table"), S ("image"), S ("figure")] then
    S ("visual")
  else S ("general")

/-- The stop-word set of `RAGPipeline.extractKeywords`. -/
def stopWords : List Str :=
  [S ("the"), S ("is"), S ("at"), S ("which"), S ("on"), S ("a"), S ("an"),
   S ("and"), S ("or"), S ("but")]

/-- `RAGPipeline.extractKeywords`: lowercase, split on whitespace, keep tokens
longer than 2 that are not stop words, cap at 10. -/
def extractKeywords (q : Str) : List Str :=
  (((splitWS (lowerStr q)).filter
    (fun w => decide (2 < w.length) && !(stopWords.contains w))).take 10)

/-- The fixed synonym table of `RAGPipeline.expandQuery`. -/
def synonymsTable : List (Str × List Str) :=
  [(S ("data"), [S ("information"), S ("statistics"), S ("metrics")]),
   (S ("analyze"), [S ("examine"), S ("study"), S ("review")]),
   (S ("show"), [S ("display"), S ("present"), S ("demonstrate")])]

/-- `RAGPipeline.expandQuery`: append the space-joined synonym list of every
keyword found in the table. -/
def expandQuery (q : Str) (keywords : List Str) : Str :=
  keywords.foldl
    (fun expanded kw =>
      match synonymsTable.lookup kw with
      | some syns => expanded ++ S (" ") ++ joinSep (S (" ")) syns
      | none => expanded)
    q

/-- Result of `RAGPipeline.preprocessQuery` (the `entities` field is omitted,
see the section comment). -/
structure ProcessedQuery where
  text : Str
  intent : Str
  keywords : List Str
  processedText : Str
deriving DecidableEq

/-- `RAGPipeline.preprocessQuery`: note that `text` is the raw query and the
expansion goes into `processedText`. -/
def preprocessQuery (q : Str) : ProcessedQuery :=
  ⟨q, classifyIntent q, extractKeywords q, expandQuery q (extractKeywords q)⟩

/-- The first argument `RAGPipeline.query` passes to
`vectorStore.searchWithQuery` (ragPipeline.js, step 2): the `text` field of the
preprocessed query. -/
def ragRetrievalText (q : Str) : Str := (preprocessQuery q).text

/-! ## VectorStore (vectorStore.js) -/

/-- Sum of squares of a vector's entries (the `magnitudeA`/`magnitudeB`
accumulators of `cosineSimilarity` before the square root, and the
`reduce((sum, val) => sum + val * val, 0)` of `simulateEmbedding`). -/
def sumSq (v : List ℝ) : ℝ := (v.map (fun x => x * x)).sum

/-- The accumulated dot product of `cosineSimilarity`. -/
def dotProduct (a b : List ℝ) : ℝ := (List.zipWith (fun x y => x * y) a b).sum

/-- Euclidean magnitude: `Math.sqrt` of the sum of squares. -/
noncomputable def magnitude (v : List ℝ) : ℝ := Real.sqrt (sumSq v)

/-- `VectorStore.cosineSimilarity`: `0` when the lengths differ, `0` when
either magnitude is zero (JS `magnitudeA && magnitudeB` truthiness), otherwise
the normalized dot product. -/
noncomputable def cosineSimilarity (a b : List ℝ) : ℝ :=
  if a.length ≠ b.length then 0
  else if magnitude a ≠ 0 ∧ magnitude b ≠ 0 then
    dotProduct a b / (magnitude a * magnitude b)
  else 0

/-- One record of the `vectors` map (the per-chunk `metadata` object is opaque
pass-through data no claim reads, and is omitted). -/
structure VectorRecord where
  id : Str
  documentId : Str
  chunkId : ℕ
  embedding : List ℝ
  content : Str
  type : Str

/-- A `search` result: the spread vector record plus its similarity. -/
structure SearchResult extends VectorRecord where
  similarity : ℝ

/-- The state of the `vectors` map, as the list of its records in insertion
order (JS `Map` iteration order is insertion order). -/
abbrev VectorStoreState := List VectorRecord

/-- The scored candidate list `results` built by the loop of
`VectorStore.search`: every stored record passing the (optional) document-id
filter, paired with its cosine similarity against the query embedding, in
insertion order.  Note that in JS an empty `documentIds` array is truthy and
filters everything out, which `some []` models. -/
noncomputable def scoredResults (store : VectorStoreState) (queryEmbedding : List ℝ)
    (documentIds : Option (List Str)) : List SearchResult :=
  (store.filter (fun v =>
    match documentIds with
    | some ids => ids.contains v.documentId
    | none => true)).map
    (fun v => ⟨v, cosineSimilarity queryEmbedding v.embedding⟩)

/-- Descending-similarity ordering used by `VectorStore.search`'s
`sort((a, b) => b.similarity - a.similarity)`. -/
def simDesc (a b : SearchResult) : Prop := b.similarity ≤ a.similarity

noncomputable instance : DecidableRel simDesc :=
  fun _ _ => inferInstanceAs (Decidable (_ ≤ _))

instance : IsTotal SearchResult simDesc := ⟨fun a b => le_total b.similarity a.similarity⟩

instance : IsTrans SearchResult simDesc :=
  ⟨fun _ _ _ h h' => le_trans h' h⟩

/-- `VectorStore.search(queryEmbedding, documentIds, limit)`: score all
eligible records, sort by similarity descending with JS's stable sort, return
the first `limit`.  The source's default `limit` is 10. -/
noncomputable def search (store : VectorStoreState) (queryEmbedding : List ℝ)
    (documentIds : Option (List Str)) (limit : ℕ) : List SearchResult :=
  (List.insertionSort simDesc (scoredResults store queryEmbedding documentIds)).take limit

/-- JS `ToInt32`: reduce an integer into the signed 32-bit range, as the
bitwise operators of `simulateEmbedding`'s hash do. -/
def toInt32 (n : ℤ) : ℤ := (n + 2 ^ 31) % 2 ^ 32 - 2 ^ 31

/-- The character hash loop of `VectorStore.simulateEmbedding`:
`hash = ((hash << 5) - hash + word.charCodeAt(j)) & 0xffffffff` (both bitwise
operators coerce through `ToInt32`; the code points involved are ASCII, so
`charCodeAt` is `Char.toNat`). -/
def strHash (w : Str) : ℤ :=
  w.foldl (fun h c => toInt32 (toInt32 (h * 32) - h + (c.toNat : ℤ))) 0

/-- The fixed `embeddingDimensions` of the store (384). -/
def embeddingDimensions : ℕ := 384

/-- `VectorStore.simulateEmbedding`: hash every lowercase word into a bucket,
add `1 / sqrt(wordCount)` there, then normalize unless the magnitude is 0. -/
noncomputable def simulateEmbedding (text : Str) : List ℝ :=
  let words := splitWS (lowerStr text)
  let embedding := words.foldl
    (fun e w =>
      let index := (strHash w).natAbs % embeddingDimensions
      e.set index (e.getD index 0 + 1 / Real.sqrt (words.length : ℝ)))
    (List.replicate embeddingDimensions (0 : ℝ))
  if 0 < magnitude embedding then embedding.map (fun v => v / magnitude embedding)
  else embedding

/-- The optional filters of `searchWithQuery` (and of the `query` pipeline):
an absent field is `none`. -/
structure Filters where
  contentType : Option Str
  minSimilarity : Option ℝ

/-- The trimmed result shape `searchWithQuery` maps its filtered records
into. -/
structure QueryResult where
  content : Str
  similarity : ℝ
  documentId : Str
  chunkId : ℕ
  type : Str

/-- `VectorStore.searchWithQuery(query, documentIds, filters)`: embed the
query, `search` with the default limit 10, then post-filter.  JS tests the
filters with truthiness, so an empty `contentType` string or a `minSimilarity`
of 0 disables the corresponding filter. -/
noncomputable def searchWithQuery (store : VectorStoreState) (query : Str)
    (documentIds : Option (List Str)) (filters : Filters) : List QueryResult :=
  let vectorResults := search store (simulateEmbedding query) documentIds 10
  let f1 := match filters.contentType with
    | some ct => if ct = [] then vectorResults
        else vectorResults.filter (fun r => decide (r.type = ct))
    | none => vectorResults
  let f2 := match filters.minSimilarity with
    | some ms => if ms = 0 then f1
        else f1.filter (fun r => decide (ms ≤ r.similarity))
    | none => f1
  f2.map (fun r => ⟨r.content, r.similarity, r.documentId, r.chunkId, r.type⟩)

/-! ## RAGPipeline retrieval, reranking, generation (ragPipeline.js) -/

/-- A reranked chunk: the spread `QueryResult` plus its `rerankedScore`. -/
structure RerankedChunk extends QueryResult where
  rerankedScore : ℝ

/-- Descending-score ordering used by `rerank`'s
`sort((a, b) => b.rerankedScore - a.rerankedScore)`. -/
def rrDesc (a b : RerankedChunk) : Prop := b.rerankedScore ≤ a.rerankedScore

noncomputable instance : DecidableRel rrDesc :=
  fun _ _ => inferInstanceAs (Decidable (_ ≤ _))

instance : IsTotal RerankedChunk rrDesc := ⟨fun a b => le_total b.rerankedScore a.rerankedScore⟩

instance : IsTrans RerankedChunk rrDesc :=
  ⟨fun _ _ _ h h' => le_trans h' h⟩

/-- The exact-keyword-overlap ratio of `rerank`: matching raw-query words over
raw-query word count. -/
noncomputable def keywordOverlapRatio (q : Str) (c : QueryResult) : ℝ :=
  let queryWords := splitWS (lowerStr q)
  let contentWords := splitWS (lowerStr c.content)
  ((queryWords.filter (fun w => contentWords.contains w)).length : ℝ) /
    (queryWords.length : ℝ)

/-- The content-type bonus of `rerank`: 0.1 when the raw query mentions
`table` and the chunk is `visual_context`, else 0. -/
noncomputable def typeBonus (q : Str) (c : QueryResult) : ℝ :=
  if strIncludes (lowerStr q) (S ("table")) = true ∧ c.type = S ("visual_context") then 0.1
  else 0

/-- The length preference of `rerank`:
`Math.max(0, 1 - Math.abs(len - 300) / 1000)`. -/
noncomputable def lengthScore (c : QueryResult) : ℝ :=
  max 0 (1 - |(c.content.length : ℝ) - 300| / 1000)

/-- The accumulated score of one candidate in `RAGPipeline.rerank`, following
the source's `score` mutations in order. -/
noncomputable def rerankScore (q : Str) (c : QueryResult) : ℝ :=
  let score := c.similarity
  let score := score + keywordOverlapRatio q c * 0.2
  let score := score + (if strIncludes (lowerStr q) (S ("table")) = true ∧
    c.type = S ("visual_context") then 0.1 else 0)
  score + lengthScore c * 0.05

/-- `RAGPipeline.rerank(query, chunks)`: attach the combined score and sort
descending (stable JS sort). -/
noncomputable def rerank (q : Str) (chunks : List QueryResult) : List RerankedChunk :=
  List.insertionSort rrDesc (chunks.map (fun c => ⟨c, rerankScore q c⟩))

/-- Worker for `RAGPipeline.buildContext`: accumulate type-labeled chunk texts
while the running length stays within the budget; the first overflowing chunk
stops the loop (`break`). -/
def buildContextGo : Str → ℕ → List RerankedChunk → Str
  | ctx, _, [] => ctx
  | ctx, curLen, c :: rest =>
    let chunkText := S ("Source: ") ++ c.type ++ S ("\n") ++ c.content ++ S ("\n\n")
    if curLen + chunkText.length ≤ 4000 then
      buildContextGo (ctx ++ chunkText) (curLen + chunkText.length) rest
    else ctx

/-- `RAGPipeline.buildContext` (`maxContextLength` is 4000). -/
def buildContext (chunks : List RerankedChunk) : Str := buildContextGo [] 0 chunks

/-- The answer object produced by `RAGPipeline.generate`. -/
structure GeneratedAnswer where
  text : Str
  confidence : ℝ
  intent : Str
  contextUsed : Bool

/-- The fixed no-information fallback of `RAGPipeline.summarizeContext`. -/
def fallbackMsg : Str :=
  S ("I couldn\x27t find specific information in the uploaded documents to answer your question. Please make sure the relevant documents are uploaded and try rephrasing your question.")

/-- The intent-keyed response templates of `RAGPipeline.generate` (the
`factual` template interpolates the query). -/
def templateFor (intent : Str) (q : Str) : Str :=
  if intent = S ("factual") then
    S ("Based on the provided context, here\x27s what I found about \"") ++ q ++ S ("\":\n\n")
  else if intent = S ("comparison") then S ("Comparing the information from the documents:\n\n")
  else if intent = S ("procedural") then S ("Here are the steps based on the documentation:\n\n")
  else if intent = S ("analytical") then S ("Based on my analysis of the provided data:\n\n")
  else if intent = S ("numerical") then S ("Here are the key statistics and numbers:\n\n")
  else if intent = S ("visual") then S ("Based on the charts, tables, and visual elements:\n\n")
  else S ("Based on the available information:\n\n")

/-- `RAGPipeline.summarizeContext`: the fallback for an empty context,
otherwise the first three long-enough sentences. -/
def summarizeContext (context : Str) : Str :=
  if context.length = 0 then fallbackMsg
  else
    let sentences := (splitRuns (fun c => c = '.' || c = '!' || c = '?') context).filter
      (fun s => decide (20 < (trimStr s).length))
    joinSep (S (". ")) (sentences.take 3) ++
      (if 3 < sentences.length then S ("...") else S ("."))

/-- `RAGPipeline.calculateResponseConfidence`. -/
noncomputable def calculateResponseConfidence (context q : Str) : ℝ :=
  let base := (0.5 : ℝ) + (if 500 < context.length then 0.2 else 0)
  let queryWords := splitWS (lowerStr q)
  let contextWords := splitWS (lowerStr context)
  let matchRatio := ((queryWords.filter (fun w => contextWords.contains w)).length : ℝ) /
    (queryWords.length : ℝ)
  min (base + matchRatio * 0.3) 1

/-- `RAGPipeline.generate(query, context, intent)`. -/
noncomputable def generate (q context intent : Str) : GeneratedAnswer :=
  ⟨templateFor intent q ++ summarizeContext context,
   calculateResponseConfidence context q, intent, decide (0 < context.length)⟩

/-- One element of the `sources` array returned by `RAGPipeline.query` (chunk
`metadata` omitted as opaque). -/
structure SourceRef where
  content : Str
  similarity : ℝ
  documentId : Str
  type : Str

/-- The response object of `RAGPipeline.query`. -/
structure RagResponse where
  answer : GeneratedAnswer
  sources : List SourceRef
  relevanceScore : ℝ
  context : Str
  queryIntent : Str

/-- `RAGPipeline.calculateRelevanceScore`: 0 with no chunks, else a 0.6/0.4
blend of mean similarity and confidence (`response.confidence || 0.5`). -/
noncomputable def calculateRelevanceScore (chunks : List RerankedChunk)
    (response : GeneratedAnswer) : ℝ :=
  if chunks.length = 0 then 0
  else
    ((chunks.map (fun c => c.similarity)).sum / (chunks.length : ℝ)) * 0.6 +
      (if response.confidence = 0 then 0.5 else response.confidence) * 0.4

/-- The filter object `{ minSimilarity: 0.3, ...filters }` built in
`RAGPipeline.query`: caller filters win by spread, otherwise the similarity
floor defaults to 0.3. -/
def mergeFilters (filters : Filters) : Filters :=
  ⟨filters.contentType,
   match filters.minSimilarity with
   | some v => some v
   | none => some 0.3⟩

/-- `RAGPipeline.query(query, documentIds, filters)` (`topK` is 5).  No step
of this pipeline can throw, so the model is a total function straight to the
response object. -/
noncomputable def ragQuery (store : VectorStoreState) (q : Str)
    (documentIds : Option (List Str)) (filters : Filters) : RagResponse :=
  let processedQuery := preprocessQuery q
  let relevantChunks := searchWithQuery store processedQuery.text documentIds
    (mergeFilters filters)
  let rerankedChunks := rerank q relevantChunks
  let selectedChunks := rerankedChunks.take 5
  let context := buildContext selectedChunks
  let response := generate q context processedQuery.intent
  let relevanceScore := calculateRelevanceScore selectedChunks response
  ⟨response,
   selectedChunks.map (fun c => ⟨c.content, c.similarity, c.documentId, c.type⟩),
   relevanceScore, context, processedQuery.intent⟩

/-! ## EvaluationMetrics (metrics.js) -/

/-- `EvaluationMetrics.calculateFaithfulness(answer, context)`: fraction of
answer words (longer than 3) that occur in the context word list.  JS
`answer.text ? split : []` makes the word list empty for an empty text. -/
noncomputable def calculateFaithfulness (answer : GeneratedAnswer) (context : Str) : ℝ :=
  if context.length = 0 then 0
  else
    let answerWords := if answer.text = [] then [] else splitWS (lowerStr answer.text)
    let contextWords := splitWS (lowerStr context)
    let groundedWords := answerWords.filter
      (fun w => contextWords.contains w && decide (3 < w.length))
    if 0 < answerWords.length then (groundedWords.length : ℝ) / (answerWords.length : ℝ)
    else 0

/-- `EvaluationMetrics.calculateAnswerRelevancy(answer, sources)`: average of
the mean source similarity and `answer.confidence || 0.5`. -/
noncomputable def calculateAnswerRelevancy (answer : GeneratedAnswer)
    (sources : List SourceRef) : ℝ :=
  if sources.length = 0 then 0
  else
    let avgSourceSimilarity := (sources.map (fun s => s.similarity)).sum /
      (sources.length : ℝ)
    let answerConfidence := if answer.confidence = 0 then 0.5 else answer.confidence
    (avgSourceSimilarity + answerConfidence) / 2

/-- `EvaluationMetrics.calculateContextRecall(sources, context)`: fraction of
sources with similarity above 0.7 (the `context` argument is unused in the
source too). -/
noncomputable def calculateContextRecall (sources : List SourceRef) (_context : Str) : ℝ :=
  if sources.length = 0 then 0
  else
    let totalSources := sources.length
    let highQualitySources := (sources.filter
      (fun s => decide ((0.7 : ℝ) < s.similarity))).length
    if 0 < totalSources then (highQualitySources : ℝ) / (totalSources : ℝ) else 0

/-- Loop body of `calculateContextPrecision`'s `forEach((source, index))`:
state is `(cumulativePrecision, relevantFound)`. -/
noncomputable def cpStep (acc : ℝ × ℕ) (p : ℕ × SourceRef) : ℝ × ℕ :=
  if (0.5 : ℝ) < p.2.similarity then
    (acc.1 + ((acc.2 + 1 : ℕ) : ℝ) / ((p.1 + 1 : ℕ) : ℝ), acc.2 + 1)
  else acc

/-- `EvaluationMetrics.calculateContextPrecision(sources)`. -/
noncomputable def calculateContextPrecision (sources : List SourceRef) : ℝ :=
  if sources.length = 0 then 0
  else
    let r := sources.enum.foldl cpStep ((0 : ℝ), (0 : ℕ))
    let relevantSources := (sources.filter
      (fun s => decide ((0.5 : ℝ) < s.similarity))).length
    if 0 < relevantSources then r.1 / (relevantSources : ℝ) else 0

/-- One record of the evaluation `queryHistory` (only the fields
`getPerformanceReport` reads; the records carry no `intent` field, so
`getQueryTypeDistribution`'s `q.intent || 'general'` is always `general`). -/
structure EvalRecord where
  latency : ℝ
  relevanceScore : ℝ
  faithfulness : ℝ
  answerRelevancy : ℝ
  contextRecall : ℝ
  contextPrecision : ℝ
  success : Bool

/-- The running `performanceMetrics` object. -/
structure PerfMetrics where
  totalQueries : ℕ
  avgLatency : ℝ
  avgRelevanceScore : ℝ
  successRate : ℝ

/-- The mutable state of an `EvaluationMetrics` instance. -/
structure EngineState where
  queryHistory : List EvalRecord
  performanceMetrics : PerfMetrics

/-- IEEE division as JS performs it in `getPerformanceReport`: a zero divisor
yields a non-finite double (`NaN` for the `0/0` produced by an empty history),
modeled as `none`; otherwise the exact quotient. -/
noncomputable def jsDiv (a b : ℝ) : Option ℝ :=
  if b = 0 then none else some (a / b)

/-- The `detailedMetrics` object of the performance report; `none` marks a
non-finite IEEE value. -/
structure DetailedMetrics where
  avgFaithfulness : Option ℝ
  avgAnswerRelevancy : Option ℝ
  avgContextRecall : Option ℝ
  avgContextPrecision : Option ℝ

/-- The three-bucket latency histogram. -/
structure LatencyBuckets where
  fast : ℕ
  medium : ℕ
  slow : ℕ
deriving DecidableEq

/-- `EvaluationMetrics.getLatencyDistribution`. -/
noncomputable def getLatencyDistribution (queries : List EvalRecord) : LatencyBuckets :=
  queries.foldl
    (fun b q =>
      if q.latency < 1000 then ⟨b.fast + 1, b.medium, b.slow⟩
      else if q.latency < 3000 then ⟨b.fast, b.medium + 1, b.slow⟩
      else ⟨b.fast, b.medium, b.slow + 1⟩)
    ⟨0, 0, 0⟩

/-- `EvaluationMetrics.getQueryTypeDistribution`: the history records carry no
`intent` field, so every record lands in `general`; with no records the result
object stays empty. -/
def getQueryTypeDistribution (queries : List EvalRecord) : List (Str × ℕ) :=
  if queries.length = 0 then [] else [(S ("general"), queries.length)]

/-- JS `arr.slice(-n)` for positive `n`: the last `n` elements. -/
def takeLast (n : ℕ) (l : List α) : List α := l.drop (l.length - n)

/-- The report object of `EvaluationMetrics.getPerformanceReport`. -/
structure PerformanceReport where
  overview : PerfMetrics
  detailedMetrics : DetailedMetrics
  latencyDistribution : LatencyBuckets
  queryTypes : List (Str × ℕ)

/-- `EvaluationMetrics.getPerformanceReport`: averages over the last 50
records, dividing by the window length without an emptiness guard. -/
noncomputable def getPerformanceReport (st : EngineState) : PerformanceReport :=
  let recent := takeLast 50 st.queryHistory
  ⟨st.performanceMetrics,
   ⟨jsDiv ((recent.map (fun q => q.faithfulness)).sum) (recent.length : ℝ),
    jsDiv ((recent.map (fun q => q.answerRelevancy)).sum) (recent.length : ℝ),
    jsDiv ((recent.map (fun q => q.contextRecall)).sum) (recent.length : ℝ),
    jsDiv ((recent.map (fun q => q.contextPrecision)).sum) (recent.length : ℝ)⟩,
   getLatencyDistribution recent,
   getQueryTypeDistribution recent⟩

/-! ## The lexicographic ranking relation used to state ranking stability -/

/-- Strict-similarity-then-insertion-index ordering on indexed search results:
`p` may precede `q` when `p` is strictly more similar, or equally similar and
inserted no later.  Sorting by this relation is the spec's "similarity
descending, ties broken by insertion order". -/
def lexRank (p q : ℕ × SearchResult) : Prop :=
  q.2.similarity < p.2.similarity ∨
    (p.2.similarity = q.2.similarity ∧ p.1 ≤ q.1)

noncomputable instance : DecidableRel lexRank :=
  fun _ _ => inferInstanceAs (Decidable (_ ∨ _))

/-! ## Concrete fixtures for counterexamples and witnesses -/

/-- A 502-character pdf paragraph made of two 250-character sentences. -/
def longText : Str :=
  List.replicate 250 'a' ++ S (". ") ++ List.replicate 250 'b'

/-- The single chunk the chunker produces from `longText`. -/
def longChunk : Chunk :=
  ⟨1, List.replicate 250 'a' ++ S (". ") ++ List.replicate 250 'b',
   S ("paragraph"), ⟨S ("pdf"), S ("paragraph")⟩⟩

/-- A stored record whose embedding has length 2 (so any length-1 query
embedding mismatches). -/
def mismatchRecord : VectorRecord :=
  ⟨S ("d_1"), S ("d"), 1, [(0 : ℝ), 0], S ("c"), S ("text")⟩

/-- A one-record store used to exercise the dimension-mismatch path. -/
def mismatchStore : VectorStoreState := [mismatchRecord]

/-- A store of eleven records whose embeddings all have length 1: ten earlier
`text` records followed by one `visual` record.  Any query whose simulated
embedding has length 384 scores 0 against every record, so the `visual` record
is cut by the pre-filter top-10 truncation. -/
def truncStore : VectorStoreState :=
  (List.range 10).map (fun i => ⟨S ("d_t"), S ("d"), i, [(0 : ℝ)], S ("c"), S ("text")⟩) ++
    [⟨S ("d_v"), S ("d"), 10, [(0 : ℝ)], S ("c"), S ("visual")⟩]

/-- The content-type filter used in the truncation counterexample. -/
def visualFilter : Filters := ⟨some (S ("visual")), none⟩

/-- An empty-content `visual_context` candidate with similarity 0, used to
evaluate the rerank formula. -/
def tableChunk : QueryResult := ⟨[], 0, S ("d"), 1, S ("visual_context")⟩

/-- Combined post-filter predicate of `searchWithQuery` (content type and
similarity floor, with the same JS truthiness escapes), used to state that the
two filter passes act as one predicate applied after truncation. -/
noncomputable def passesFilters (fl : Filters) (r : SearchResult) : Bool :=
  (match fl.contentType with
   | some ct => if ct = [] then true else decide (r.type = ct)
   | none => true) &&
  (match fl.minSimilarity with
   | some ms => if ms = 0 then true else decide (ms ≤ r.similarity)
   | none => true)

/-- The `query` pipeline as the amended claim C3 describes it: identical to
`ragQuery` except that the retrieval step is handed the raw query text
directly.  (Definition written from the amended claim's words, for comparison
with `ragQuery`.) -/
noncomputable def ragQueryRawRetrieval (store : VectorStoreState) (q : Str)
    (documentIds : Option (List Str)) (filters : Filters) : RagResponse :=
  let processedQuery := preprocessQuery q
  let relevantChunks := searchWithQuery store q documentIds (mergeFilters filters)
  let rerankedChunks := rerank q relevantChunks
  let selectedChunks := rerankedChunks.take 5
  let context := buildContext selectedChunks
  let response := generate q context processedQuery.intent
  let relevanceScore := calculateRelevanceScore selectedChunks response
  ⟨response,
   selectedChunks.map (fun c => ⟨c.content, c.similarity, c.documentId, c.type⟩),
   relevanceScore, context, processedQuery.intent⟩

/-- Answer fixture used by witnesses: confidence 1/2. -/
noncomputable def witnessAnswer : GeneratedAnswer := ⟨S ("ok"), 1 / 2, S ("general"), true⟩

/-- Source fixture used by witnesses: one source of similarity 1/2. -/
noncomputable def witnessSources : List SourceRef := [⟨S ("c"), 1 / 2, S ("d"), S ("text")⟩]

/-! ## Proofs -/

set_option maxRecDepth 1000000

lemma trimStr_length_le (s : Str) : (trimStr s).length ≤ s.length := by
  have h1 : ∀ l : Str, (l.dropWhile Char.isWhitespace).length ≤ l.length :=
    fun l => (List.dropWhile_sublist _).length_le
  simp only [trimStr, List.length_reverse]
  exact le_trans (h1 _) (by simpa using h1 s)

lemma filter_ratio_range (l : List Str) (p : Str → Bool) :
    0 ≤ (if 0 < l.length then ((l.filter p).length : ℝ) / (l.length : ℝ) else 0) ∧
    (if 0 < l.length then ((l.filter p).length : ℝ) / (l.length : ℝ) else 0) ≤ 1 := by
  split
  · rename_i h
    constructor
    · positivity
    · rw [div_le_one (by exact_mod_cast h)]
      exact_mod_cast List.length_filter_le _ _
  · norm_num

lemma sentStep_fold_spec (T : List Str) :
    ∀ (l : List Str) (cs : List Chunk) (cur : Str) (nid : ℕ),
      (∀ s ∈ l, s ∈ T) →
      (∀ c ∈ cs, c.content.length ≤ 502 ∨
        ∃ s ∈ T, 500 < s.length ∧ c.content = trimStr s) →
      (cur = [] ∨ cur.length ≤ 502 ∨ ∃ s ∈ T, cur = s ∧ 500 < s.length) →
      (∀ c ∈ (l.foldl sentStep (cs, cur, nid)).1,
        c.content.length ≤ 502 ∨ ∃ s ∈ T, 500 < s.length ∧ c.content = trimStr s) ∧
      ((l.foldl sentStep (cs, cur, nid)).2.1 = [] ∨
        (l.foldl sentStep (cs, cur, nid)).2.1.length ≤ 502 ∨
        ∃ s ∈ T, (l.foldl sentStep (cs, cur, nid)).2.1 = s ∧ 500 < s.length) := by
  intro l
  induction l with
  | nil => intro cs cur nid _ hcs hcur; exact ⟨hcs, hcur⟩
  | cons s l ih =>
    intro cs cur nid hsub hcs hcur
    have hsT : s ∈ T := hsub s (List.mem_cons_self _ _)
    have hsub' : ∀ x ∈ l, x ∈ T := fun x hx => hsub x (List.mem_cons_of_mem _ hx)
    have hcur' : ∀ _ : ¬ 500 < s.length,
        (s = [] ∨ s.length ≤ 502 ∨ ∃ t ∈ T, s = t ∧ 500 < t.length) :=
      fun h3 => Or.inr (Or.inl (by omega))
    rw [List.foldl_cons]
    by_cases h1 : 500 < cur.length + s.length
    · by_cases h2 : cur = []
      · have hstep : sentStep (cs, cur, nid) s = (cs, s, nid) := by
          simp [sentStep, h1, h2]
        rw [hstep]
        refine ih cs s nid hsub' hcs ?_
        by_cases h3 : 500 < s.length
        · exact Or.inr (Or.inr ⟨s, hsT, rfl, h3⟩)
        · exact hcur' h3
      · have hstep : sentStep (cs, cur, nid) s =
            (cs ++ [⟨nid, trimStr cur, S ("paragraph"), ⟨S ("pdf"), S ("paragraph")⟩⟩],
              s, nid + 1) := by
          simp [sentStep, h1, h2]
        rw [hstep]
        refine ih _ s (nid + 1) hsub' ?_ ?_
        · intro c hc
          rcases List.mem_append.1 hc with hc | hc
          · exact hcs c hc
          · simp only [List.mem_singleton] at hc
            subst hc
            rcases hcur with rfl | hlen | ⟨t, htT, hct, ht⟩
            · exact absurd rfl h2
            · exact Or.inl (le_trans (trimStr_length_le _) hlen)
            · exact Or.inr ⟨t, htT, ht, by rw [hct]⟩
        · by_cases h3 : 500 < s.length
          · exact Or.inr (Or.inr ⟨s, hsT, rfl, h3⟩)
          · exact hcur' h3
    · by_cases h2 : cur = []
      · have hstep : sentStep (cs, cur, nid) s = (cs, s, nid) := by
          simp [sentStep, h1, h2]
        rw [hstep]
        refine ih cs s nid hsub' hcs (Or.inr (Or.inl ?_))
        subst h2
        simp only [List.length_nil, Nat.zero_add] at h1
        omega
      · have hstep : sentStep (cs, cur, nid) s = (cs, cur ++ S (". ") ++ s, nid) := by
          simp [sentStep, h1, h2]
        rw [hstep]
        refine ih cs _ nid hsub' hcs (Or.inr (Or.inl ?_))
        have hlen2 : (S (". ")).length = 2 := by decide
        simp only [List.length_append, hlen2]
        omega

lemma processParagraph_spec (p : Str) (nid : ℕ) :
    ∀ c ∈ (processParagraph p nid).1,
      c.content.length ≤ 502 ∨
        ∃ s ∈ splitOnSep (S (". ")) p, 500 < s.length ∧ c.content = trimStr s := by
  intro c hc
  by_cases hp : 500 < p.length
  · simp only [processParagraph, if_pos hp] at hc
    obtain ⟨h1, h2⟩ := sentStep_fold_spec (splitOnSep (S (". ")) p)
      (splitOnSep (S (". ")) p) [] [] nid (fun _ h => h) (by simp) (Or.inl rfl)
    by_cases hcur : ((splitOnSep (S (". ")) p).foldl sentStep ([], [], nid)).2.1 = []
    · rw [if_neg (by simpa using hcur)] at hc
      exact h1 c hc
    · rw [if_pos (by simpa using hcur)] at hc
      rcases List.mem_append.1 hc with hc | hc
      · exact h1 c hc
      · simp only [List.mem_singleton] at hc
        subst hc
        rcases h2 with h | hlen | ⟨t, htT, hct, ht⟩
        · exact absurd h hcur
        · exact Or.inl (le_trans (trimStr_length_le _) hlen)
        · exact Or.inr ⟨t, htT, ht, by rw [hct]⟩
  · simp only [processParagraph, if_neg hp] at hc
    simp only [List.mem_singleton] at hc
    subst hc
    refine Or.inl ?_
    show p.length ≤ 502
    omega

lemma createChunks_pdf_spec (text : Str) :
    ∀ c ∈ createChunks text (S ("pdf")),
      c.content.length ≤ 502 ∨
        ∃ p ∈ pdfParagraphs text, ∃ s ∈ splitOnSep (S (". ")) p,
          500 < s.length ∧ c.content = trimStr s := by
  have main : ∀ (ps : List Str) (acc : List Chunk × ℕ),
      (∀ q ∈ ps, q ∈ pdfParagraphs text) →
      (∀ c ∈ acc.1, c.content.length ≤ 502 ∨
        ∃ p ∈ pdfParagraphs text, ∃ s ∈ splitOnSep (S (". ")) p,
          500 < s.length ∧ c.content = trimStr s) →
      ∀ c ∈ (ps.foldl
          (fun acc p =>
            let r := processParagraph p acc.2
            (acc.1 ++ r.1, r.2)) acc).1,
        c.content.length ≤ 502 ∨
          ∃ p ∈ pdfParagraphs text, ∃ s ∈ splitOnSep (S (". ")) p,
            500 < s.length ∧ c.content = trimStr s := by
    intro ps
    induction ps with
    | nil => intro acc _ hacc; exact hacc
    | cons p ps ih =>
      intro acc hsub hacc
      rw [List.foldl_cons]
      refine ih _ (fun q hq => hsub q (List.mem_cons_of_mem _ hq)) ?_
      intro c hc
      rcases List.mem_append.1 hc with hc | hc
      · exact hacc c hc
      · rcases processParagraph_spec p acc.2 c hc with h | ⟨s, hs, h5, he⟩
        · exact Or.inl h
        · exact Or.inr ⟨p, hsub p (List.mem_cons_self _ _), s, hs, h5, he⟩
  intro c hc
  refine main (pdfParagraphs text) ([], 1) (fun _ h => h) (by simp) c ?_
  simpa [createChunks] using hc

/-- Claim C4, amended: every chunk produced from `pdf`-kind text has content of
at most 502 characters (not 500: the `". "` rejoin adds two characters past the
500-character check), unless it is the trimmed copy of a single sentence that
alone exceeds 500 characters. -/
theorem claim_c4 (text : Str) (c : Chunk) (hc : c ∈ createChunks text (S ("pdf"))) :
    c.content.length ≤ 502 ∨
      ∃ p ∈ pdfParagraphs text, ∃ s ∈ splitOnSep (S (". ")) p,
        500 < s.length ∧ c.content = trimStr s :=
  createChunks_pdf_spec text c hc

/-- Witness for claim C4 at the concrete input `"Hello world"`. -/
theorem claim_c4_witness :
    (⟨1, S ("Hello world"), S ("paragraph"), ⟨S ("pdf"), S ("paragraph")⟩⟩ : Chunk) ∈
        createChunks (S ("Hello world")) (S ("pdf")) ∧
      ((⟨1, S ("Hello world"), S ("paragraph"), ⟨S ("pdf"), S ("paragraph")⟩⟩ :
          Chunk).content.length ≤ 502 ∨
        ∃ p ∈ pdfParagraphs (S ("Hello world")),
          ∃ s ∈ splitOnSep (S (". ")) p,
            500 < s.length ∧
              (⟨1, S ("Hello world"), S ("paragraph"), ⟨S ("pdf"), S ("paragraph")⟩⟩ :
                Chunk).content = trimStr s) :=
  ⟨by decide, claim_c4 (S ("Hello world")) _ (by decide)⟩

/-- Counterexample to claim C4 as stated: `longText` is a 502-character
paragraph of two 250-character sentences; the chunker emits it as a single
502-character chunk, which exceeds 500 yet is not the trimmed copy of any
oversized single sentence. -/
theorem claim_c4_counterexample :
    longChunk ∈ createChunks longText (S ("pdf")) ∧
    ¬ (longChunk.content.length ≤ 500 ∨
        ∃ p ∈ pdfParagraphs longText, ∃ s ∈ splitOnSep (S (". ")) p,
          500 < s.length ∧ longChunk.content = trimStr s) := by
  decide

lemma sumSq_nil : sumSq [] = 0 := by simp [sumSq]

lemma sumSq_cons (x : ℝ) (v : List ℝ) : sumSq (x :: v) = x * x + sumSq v := by
  simp [sumSq]

lemma sumSq_nonneg (v : List ℝ) : 0 ≤ sumSq v := by
  induction v with
  | nil => simp [sumSq_nil]
  | cons x v ih => rw [sumSq_cons]; nlinarith [mul_self_nonneg x]

lemma dotProduct_nil_left (b : List ℝ) : dotProduct [] b = 0 := by simp [dotProduct]

lemma dotProduct_nil_right (a : List ℝ) : dotProduct a [] = 0 := by simp [dotProduct]

lemma dotProduct_cons (x y : ℝ) (a b : List ℝ) :
    dotProduct (x :: a) (y :: b) = x * y + dotProduct a b := by
  simp [dotProduct]

lemma dotProduct_self (v : List ℝ) : dotProduct v v = sumSq v := by
  induction v with
  | nil => simp [dotProduct_nil_left, sumSq_nil]
  | cons x v ih => rw [dotProduct_cons, sumSq_cons, ih]

lemma dotProduct_sq_le (a : List ℝ) : ∀ b : List ℝ,
    dotProduct a b ^ 2 ≤ sumSq a * sumSq b := by
  induction a with
  | nil =>
    intro b
    simp [dotProduct_nil_left, sumSq_nil]
  | cons x a ih =>
    intro b
    cases b with
    | nil =>
      simp [dotProduct_nil_right, sumSq_nil]
    | cons y b =>
      have h := ih b
      have ha := sumSq_nonneg a
      have hb := sumSq_nonneg b
      rw [dotProduct_cons, sumSq_cons, sumSq_cons]
      rcases eq_or_lt_of_le ha with hA0 | hApos
      · have hD : dotProduct a b = 0 := by nlinarith [sq_nonneg (dotProduct a b)]
        rw [hD, ← hA0]
        nlinarith [sq_nonneg x, mul_self_nonneg x]
      · have key : 0 ≤ (x ^ 2 + sumSq a) * (sumSq a * sumSq b - dotProduct a b ^ 2) :=
          mul_nonneg (by positivity) (by linarith)
        nlinarith [sq_nonneg (x * dotProduct a b - sumSq a * y), key, hApos]

lemma abs_dotProduct_le (a b : List ℝ) :
    |dotProduct a b| ≤ magnitude a * magnitude b := by
  have h := dotProduct_sq_le a b
  have h2 := Real.sqrt_le_sqrt h
  rw [Real.sqrt_sq_eq_abs, Real.sqrt_mul (sumSq_nonneg a)] at h2
  exact h2

lemma magnitude_nonneg (v : List ℝ) : 0 ≤ magnitude v := Real.sqrt_nonneg _

lemma cosineSimilarity_bounds (a b : List ℝ) :
    -1 ≤ cosineSimilarity a b ∧ cosineSimilarity a b ≤ 1 := by
  unfold cosineSimilarity
  split
  · norm_num
  · split
    · rename_i hmag
      obtain ⟨hma, hmb⟩ := hmag
      have hpos : 0 < magnitude a * magnitude b :=
        mul_pos (lt_of_le_of_ne (magnitude_nonneg a) (Ne.symm hma))
          (lt_of_le_of_ne (magnitude_nonneg b) (Ne.symm hmb))
      have habs : |dotProduct a b / (magnitude a * magnitude b)| ≤ 1 := by
        rw [abs_div, abs_of_pos hpos]
        exact div_le_one_of_le₀ (abs_dotProduct_le a b) (le_of_lt hpos)
      exact abs_le.1 habs
    · norm_num

lemma cosineSimilarity_self (a : List ℝ) (h : 0 < magnitude a) :
    cosineSimilarity a a = 1 := by
  have hA : 0 < sumSq a := Real.sqrt_pos.mp h
  unfold cosineSimilarity
  rw [if_neg (by simp), if_pos ⟨ne_of_gt h, ne_of_gt h⟩, dotProduct_self]
  rw [show magnitude a * magnitude a = sumSq a from Real.mul_self_sqrt (sumSq_nonneg a)]
  exact div_self (ne_of_gt hA)

lemma cosineSimilarity_zero_mag (a b : List ℝ)
    (h : magnitude a = 0 ∨ magnitude b = 0) : cosineSimilarity a b = 0 := by
  unfold cosineSimilarity
  split
  · rfl
  · rw [if_neg]
    rcases h with h | h
    · exact fun hc => hc.1 h
    · exact fun hc => hc.2 h

/-- Claim C6: cosine similarity is always in `[-1, 1]`; a vector of positive
magnitude has similarity exactly 1 with itself (exactly, in the exact-real
model, hence within floating tolerance); and whenever either vector has zero
magnitude the result is exactly 0 — never undefined and never a failure, since
the function is total. -/
theorem claim_c6 :
    (∀ a b : List ℝ, a.length = b.length →
      -1 ≤ cosineSimilarity a b ∧ cosineSimilarity a b ≤ 1) ∧
    (∀ a : List ℝ, 0 < magnitude a → cosineSimilarity a a = 1) ∧
    (∀ a b : List ℝ, magnitude a = 0 ∨ magnitude b = 0 → cosineSimilarity a b = 0) :=
  ⟨fun a b _ => cosineSimilarity_bounds a b,
   cosineSimilarity_self,
   cosineSimilarity_zero_mag⟩

/-- Witness for claim C6 at the concrete vectors `[1]` and `[0]`. -/
theorem claim_c6_witness :
    (([(1 : ℝ)].length = [(1 : ℝ)].length) ∧
      -1 ≤ cosineSimilarity [(1 : ℝ)] [(1 : ℝ)] ∧
        cosineSimilarity [(1 : ℝ)] [(1 : ℝ)] ≤ 1) ∧
    (0 < magnitude [(1 : ℝ)] ∧ cosineSimilarity [(1 : ℝ)] [(1 : ℝ)] = 1) ∧
    (magnitude [(0 : ℝ)] = 0 ∧ cosineSimilarity [(0 : ℝ)] [(0 : ℝ)] = 0) := by
  have h1 : magnitude [(1 : ℝ)] = 1 := by
    simp [magnitude, sumSq]
  have h0 : magnitude [(0 : ℝ)] = 0 := by
    simp [magnitude, sumSq]
  refine ⟨⟨rfl, claim_c6.1 [(1 : ℝ)] [(1 : ℝ)] rfl⟩,
    ⟨?_, claim_c6.2.1 [(1 : ℝ)] ?_⟩, ⟨h0, claim_c6.2.2 [(0 : ℝ)] [(0 : ℝ)] (Or.inl h0)⟩⟩
  · rw [h1]; norm_num
  · rw [h1]; norm_num

lemma cosineSimilarity_of_length_ne (a b : List ℝ) (h : a.length ≠ b.length) :
    cosineSimilarity a b = 0 := by
  unfold cosineSimilarity
  rw [if_pos h]

lemma scoredResults_none (store : VectorStoreState) (qe : List ℝ) :
    scoredResults store qe none =
      store.map (fun v => ⟨v, cosineSimilarity qe v.embedding⟩) := by
  simp [scoredResults]

lemma mem_search (store : VectorStoreState) (qe : List ℝ) (ids : Option (List Str))
    (limit : ℕ) {r : SearchResult} (hr : r ∈ search store qe ids limit) :
    r ∈ scoredResults store qe ids := by
  have h1 : r ∈ List.insertionSort simDesc (scoredResults store qe ids) :=
    (List.take_sublist _ _).mem hr
  exact (List.mem_insertionSort simDesc).1 h1

/-- Claim C1, amended: a query embedding whose length differs from every stored
embedding raises no error.  `cosineSimilarity` yields 0 for each mismatched
pair, so `search` returns an ordinary result list — `min limit n` records, each
carrying similarity 0 and its stored record unchanged (no truncation or
padding). -/
theorem claim_c1 (store : VectorStoreState) (qe : List ℝ) (limit : ℕ)
    (h : ∀ r ∈ store, r.embedding.length ≠ qe.length) :
    (∀ res ∈ search store qe none limit, res.similarity = 0) ∧
    (∀ res ∈ search store qe none limit, res.toVectorRecord ∈ store) ∧
    (search store qe none limit).length = min limit store.length := by
  refine ⟨?_, ?_, ?_⟩
  · intro res hres
    have h1 : res ∈ scoredResults store qe none := mem_search _ _ _ _ hres
    rw [scoredResults_none] at h1
    obtain ⟨v, hv, rfl⟩ := List.mem_map.1 h1
    exact cosineSimilarity_of_length_ne _ _ (Ne.symm (h v hv))
  · intro res hres
    have h1 : res ∈ scoredResults store qe none := mem_search _ _ _ _ hres
    rw [scoredResults_none] at h1
    obtain ⟨v, hv, rfl⟩ := List.mem_map.1 h1
    exact hv
  · unfold search
    rw [List.length_take, List.length_insertionSort, scoredResults_none,
      List.length_map]

/-- Witness for claim C1 at the one-record store `mismatchStore` (embedding
length 2) and the length-1 query embedding `[0]`. -/
theorem claim_c1_witness :
    (∀ r ∈ mismatchStore, r.embedding.length ≠ [(0 : ℝ)].length) ∧
    ((∀ res ∈ search mismatchStore [(0 : ℝ)] none 10, res.similarity = 0) ∧
      (∀ res ∈ search mismatchStore [(0 : ℝ)] none 10, res.toVectorRecord ∈ mismatchStore) ∧
      (search mismatchStore [(0 : ℝ)] none 10).length = min 10 mismatchStore.length) := by
  have h : ∀ r ∈ mismatchStore, r.embedding.length ≠ [(0 : ℝ)].length := by
    intro r hr
    simp only [mismatchStore, List.mem_singleton] at hr
    subst hr
    simp [mismatchRecord]
  exact ⟨h, claim_c1 mismatchStore [(0 : ℝ)] 10 h⟩

/-- Counterexample to claim C1 as stated: with a stored embedding of length 2
and a query embedding of length 1, `search` does not fail and does not return
an empty list — it returns the record with similarity 0. -/
theorem claim_c1_counterexample :
    (search mismatchStore [(0 : ℝ)] none 10).map (fun r => r.similarity) = [0] ∧
    search mismatchStore [(0 : ℝ)] none 10 ≠ [] := by
  have hcos : cosineSimilarity [(0 : ℝ)] mismatchRecord.embedding = 0 :=
    cosineSimilarity_of_length_ne _ _ (by simp [mismatchRecord])
  have hscored : scoredResults mismatchStore [(0 : ℝ)] none =
      [⟨mismatchRecord, 0⟩] := by
    rw [scoredResults_none]
    simp [mismatchStore, hcos]
  constructor
  · unfold search
    rw [hscored]
    simp [List.insertionSort, List.orderedInsert]
  · unfold search
    rw [hscored]
    simp [List.insertionSort, List.orderedInsert]

lemma map_snd_orderedInsert (n : ℕ) (x : SearchResult) :
    ∀ L : List (ℕ × SearchResult), (∀ p ∈ L, n < p.1) →
      (List.orderedInsert lexRank (n, x) L).map Prod.snd =
        List.orderedInsert simDesc x (L.map Prod.snd) := by
  intro L
  induction L with
  | nil => intro _; simp [List.orderedInsert]
  | cons p L ih =>
    intro h
    obtain ⟨j, y⟩ := p
    have hj : n < j := h (j, y) (List.mem_cons_self _ _)
    have hiff : lexRank (n, x) (j, y) ↔ simDesc x y := by
      unfold lexRank simDesc
      constructor
      · rintro (hlt | ⟨heq, _⟩)
        · exact le_of_lt hlt
        · exact le_of_eq heq.symm
      · intro hle
        rcases lt_or_eq_of_le hle with hlt | heq
        · exact Or.inl hlt
        · exact Or.inr ⟨heq.symm, le_of_lt hj⟩
    simp only [List.orderedInsert]
    by_cases hc : simDesc x y
    · rw [if_pos (hiff.2 hc), if_pos hc]
      simp
    · rw [if_neg (fun hl => hc (hiff.1 hl)), if_neg hc]
      simp only [List.map_cons]
      rw [ih (fun q hq => h q (List.mem_cons_of_mem _ hq))]

lemma insertionSort_map_snd (l : List SearchResult) :
    ∀ n : ℕ, List.insertionSort simDesc l =
      ((l.enumFrom n).insertionSort lexRank).map Prod.snd := by
  induction l with
  | nil => intro n; simp [List.insertionSort]
  | cons x xs ih =>
    intro n
    have hmem : ∀ p ∈ (xs.enumFrom (n + 1)).insertionSort lexRank, n < p.1 := by
      intro p hp
      have hmem2 : p ∈ xs.enumFrom (n + 1) := (List.mem_insertionSort lexRank).1 hp
      obtain ⟨j, y⟩ := p
      rw [List.mk_mem_enumFrom_iff_le_and_getElem?_sub] at hmem2
      omega
    rw [List.enumFrom_cons]
    rw [List.insertionSort, List.insertionSort]
    rw [ih (n + 1)]
    exact (map_snd_orderedInsert n x _ hmem).symm

/-- Claim C7: `search` results are sorted by similarity descending, and the
whole operation equals sorting the insertion-ordered scored candidates by the
lexicographic key (similarity descending, then insertion index ascending) —
ties are broken by insertion order, first-inserted wins. -/
theorem claim_c7 (store : VectorStoreState) (qe : List ℝ)
    (ids : Option (List Str)) (limit : ℕ) :
    List.Sorted simDesc (search store qe ids limit) ∧
    search store qe ids limit =
      (((scoredResults store qe ids).enum.insertionSort lexRank).map Prod.snd).take limit := by
  constructor
  · have hs : List.Sorted simDesc (List.insertionSort simDesc (scoredResults store qe ids)) :=
      List.sorted_insertionSort _ _
    exact List.Pairwise.sublist (List.take_sublist _ _) hs
  · unfold search
    rw [insertionSort_map_snd _ 0]
    rfl

lemma searchWithQuery_eq_filter (store : VectorStoreState) (q : Str)
    (ids : Option (List Str)) (fl : Filters) :
    searchWithQuery store q ids fl =
      ((search store (simulateEmbedding q) ids 10).filter (passesFilters fl)).map
        (fun r => ⟨r.content, r.similarity, r.documentId, r.chunkId, r.type⟩) := by
  obtain ⟨ct, ms⟩ := fl
  unfold searchWithQuery passesFilters
  cases ct with
  | none =>
    cases ms with
    | none => simp
    | some m =>
      by_cases hm : m = 0
      · simp [hm]
      · simp [hm]
  | some c =>
    by_cases hc : c = []
    · cases ms with
      | none => simp [hc]
      | some m =>
        by_cases hm : m = 0
        · simp [hc, hm]
        · simp [hc, hm]
    · cases ms with
      | none => simp [hc]
      | some m =>
        by_cases hm : m = 0
        · simp [hc, hm]
        · simp [hc, hm, List.filter_filter, Bool.and_comm]

lemma simulateEmbedding_length (t : Str) :
    (simulateEmbedding t).length = embeddingDimensions := by
  unfold simulateEmbedding
  have hfold : ∀ (ws : List Str) (e : List ℝ), e.length = embeddingDimensions →
      (ws.foldl (fun e w =>
        let index := (strHash w).natAbs % embeddingDimensions
        e.set index (e.getD index 0 + 1 / Real.sqrt ((splitWS (lowerStr t)).length : ℝ)))
        e).length = embeddingDimensions := by
    intro ws
    induction ws with
    | nil => intro e he; exact he
    | cons w ws ih =>
      intro e he
      rw [List.foldl_cons]
      exact ih _ (by simp [he])
  have hbase : (List.replicate embeddingDimensions (0 : ℝ)).length = embeddingDimensions := by
    simp
  dsimp only
  split
  · rw [List.length_map]
    exact hfold _ _ hbase
  · exact hfold _ _ hbase

lemma truncStore_embedding : ∀ r ∈ truncStore, r.embedding = [(0 : ℝ)] := by
  intro r hr
  simp only [truncStore, List.mem_append, List.mem_map, List.mem_singleton] at hr
  rcases hr with ⟨i, _, rfl⟩ | rfl <;> rfl

lemma sorted_const_zero (l : List VectorRecord) :
    List.Sorted simDesc (l.map (fun v => ⟨v, (0 : ℝ)⟩)) := by
  induction l with
  | nil => simp
  | cons v l ih =>
    rw [List.map_cons]
    refine List.sorted_cons.2 ⟨?_, ih⟩
    intro b hb
    obtain ⟨w, _, rfl⟩ := List.mem_map.1 hb
    exact le_refl (0 : ℝ)

lemma scored_truncStore (q : Str) :
    scoredResults truncStore (simulateEmbedding q) none =
      truncStore.map (fun v => ⟨v, (0 : ℝ)⟩) := by
  rw [scoredResults_none]
  refine List.map_congr_left ?_
  intro v hv
  have h : cosineSimilarity (simulateEmbedding q) v.embedding = 0 := by
    apply cosineSimilarity_of_length_ne
    rw [simulateEmbedding_length, truncStore_embedding v hv]
    decide
  rw [h]

lemma truncStore_scored_split :
    truncStore.map (fun v => (⟨v, (0 : ℝ)⟩ : SearchResult)) =
      ((List.range 10).map
        (fun i => (⟨⟨S ("d_t"), S ("d"), i, [(0 : ℝ)], S ("c"), S ("text")⟩, (0 : ℝ)⟩ :
          SearchResult))) ++
      [⟨⟨S ("d_v"), S ("d"), 10, [(0 : ℝ)], S ("c"), S ("visual")⟩, (0 : ℝ)⟩] := by
  simp [truncStore, List.map_map]

lemma search_truncStore (q : Str) :
    search truncStore (simulateEmbedding q) none 10 =
      ((List.range 10).map
        (fun i => (⟨⟨S ("d_t"), S ("d"), i, [(0 : ℝ)], S ("c"), S ("text")⟩, (0 : ℝ)⟩ :
          SearchResult))) := by
  unfold search
  rw [scored_truncStore, List.Sorted.insertionSort_eq (sorted_const_zero _)]
  rw [truncStore_scored_split]
  rw [show (10 : ℕ) = ((List.range 10).map
      (fun i => (⟨⟨S ("d_t"), S ("d"), i, [(0 : ℝ)], S ("c"), S ("text")⟩, (0 : ℝ)⟩ :
        SearchResult))).length by simp]
  exact List.take_left _ _

lemma passes_visual (r : SearchResult) :
    passesFilters visualFilter r = decide (r.type = S ("visual")) := by
  unfold passesFilters visualFilter
  dsimp only
  rw [if_neg (by decide)]
  simp

lemma text_filter_nil :
    ((List.range 10).map
      (fun i => (⟨⟨S ("d_t"), S ("d"), i, [(0 : ℝ)], S ("c"), S ("text")⟩, (0 : ℝ)⟩ :
        SearchResult))).filter (passesFilters visualFilter) = [] := by
  rw [List.filter_eq_nil_iff]
  intro a ha
  obtain ⟨i, _, rfl⟩ := List.mem_map.1 ha
  rw [passes_visual]
  simp only [decide_eq_true_eq]
  decide

/-- Claim C9: `searchWithQuery` equals applying the content-type and
minimum-similarity filters to the already-truncated top-10 of `search`; at the
eleven-record store `truncStore` the one record matching the `visual` filter is
cut by the truncation, so the call returns nothing even though exactly one
scored record passes the filters. -/
theorem claim_c9 :
    (∀ (store : VectorStoreState) (q : Str) (ids : Option (List Str)) (fl : Filters),
      searchWithQuery store q ids fl =
        ((search store (simulateEmbedding q) ids 10).filter (passesFilters fl)).map
          (fun r => ⟨r.content, r.similarity, r.documentId, r.chunkId, r.type⟩)) ∧
    searchWithQuery truncStore (S ("q")) none visualFilter = [] ∧
    ((scoredResults truncStore (simulateEmbedding (S ("q"))) none).filter
      (passesFilters visualFilter)).length = 1 := by
  refine ⟨searchWithQuery_eq_filter, ?_, ?_⟩
  · rw [searchWithQuery_eq_filter, search_truncStore, text_filter_nil]
    rfl
  · rw [scored_truncStore, truncStore_scored_split, List.filter_append, text_filter_nil]
    rw [List.filter_singleton]
    rw [passes_visual]
    simp

lemma search_nil (qe : List ℝ) (ids : Option (List Str)) (lim : ℕ) :
    search [] qe ids lim = [] := by
  unfold search
  rw [show scoredResults [] qe ids = [] from rfl]
  simp [List.insertionSort]

lemma searchWithQuery_nil (q : Str) (ids : Option (List Str)) (fl : Filters) :
    searchWithQuery [] q ids fl = [] := by
  rw [searchWithQuery_eq_filter, search_nil]
  rfl

lemma ragQuery_empty_spec (q : Str) (ids : Option (List Str)) (fl : Filters) :
    (ragQuery [] q ids fl).sources = [] ∧
    (ragQuery [] q ids fl).relevanceScore = 0 ∧
    (ragQuery [] q ids fl).answer.text = templateFor (classifyIntent q) q ++ fallbackMsg ∧
    (ragQuery [] q ids fl).answer.contextUsed = false := by
  have hswq : searchWithQuery [] (preprocessQuery q).text ids (mergeFilters fl) = [] :=
    searchWithQuery_nil _ _ _
  have hrr : rerank q [] = [] := rfl
  unfold ragQuery
  dsimp only
  rw [hswq, hrr]
  have hbc : buildContext ([] : List RerankedChunk) = [] := rfl
  rw [show (List.take 5 ([] : List RerankedChunk)) = [] by simp, hbc]
  have hgen : generate q [] (preprocessQuery q).intent =
      ⟨templateFor (preprocessQuery q).intent q ++ fallbackMsg,
        calculateResponseConfidence [] q, (preprocessQuery q).intent, false⟩ := by
    unfold generate summarizeContext
    simp
  rw [hgen]
  have hrel : calculateRelevanceScore []
      (⟨templateFor (preprocessQuery q).intent q ++ fallbackMsg,
        calculateResponseConfidence [] q, (preprocessQuery q).intent, false⟩ :
          GeneratedAnswer) = 0 := by
    unfold calculateRelevanceScore
    simp
  rw [hrel]
  exact ⟨rfl, rfl, rfl, rfl⟩

/-- Claim C2, amended: a query against an empty index raises no error and is
not answered from thin air — it returns a normal response whose sources are
empty, whose relevance score is 0, and whose answer text is the intent
template followed by the fixed no-information fallback message (the code
defines no `EmptySelection` error anywhere). -/
theorem claim_c2 (q : Str) (ids : Option (List Str)) (fl : Filters) :
    (ragQuery [] q ids fl).sources = [] ∧
    (ragQuery [] q ids fl).relevanceScore = 0 ∧
    (ragQuery [] q ids fl).answer.text = templateFor (classifyIntent q) q ++ fallbackMsg ∧
    (ragQuery [] q ids fl).answer.contextUsed = false :=
  ragQuery_empty_spec q ids fl

/-- Counterexample to claim C2 as stated: the concrete query `"hi"` against the
empty store returns a response object with a non-empty answer text (the
fallback message), rather than surfacing any error. -/
theorem claim_c2_counterexample :
    (ragQuery [] (S ("hi")) none ⟨none, none⟩).sources = [] ∧
    (ragQuery [] (S ("hi")) none ⟨none, none⟩).answer.text =
      S ("Based on the available information:\n\n") ++ fallbackMsg ∧
    (ragQuery [] (S ("hi")) none ⟨none, none⟩).answer.text ≠ [] := by
  obtain ⟨h1, _, h3, _⟩ := ragQuery_empty_spec (S ("hi")) none ⟨none, none⟩
  rw [show classifyIntent (S ("hi")) = S ("general") by decide] at h3
  rw [show templateFor (S ("general")) (S ("hi")) =
    S ("Based on the available information:\n\n") by decide] at h3
  refine ⟨h1, h3, ?_⟩
  rw [h3]
  decide

/-- Claim C3, amended: the retrieval step embeds the raw query text — the text
handed to `searchWithQuery` is the `text` field of the preprocessed query,
which is the query itself; the expanded query is computed into `processedText`
but never used, so the pipeline coincides with the raw-retrieval variant. -/
theorem claim_c3 :
    (∀ q : Str, ragRetrievalText q = q) ∧
    (∀ q : Str, (preprocessQuery q).processedText = expandQuery q (extractKeywords q)) ∧
    (∀ (store : VectorStoreState) (q : Str) (ids : Option (List Str)) (fl : Filters),
      ragQuery store q ids fl = ragQueryRawRetrieval store q ids fl) :=
  ⟨fun _ => rfl, fun _ => rfl, fun _ _ _ _ => rfl⟩

/-- Counterexample to claim C3 as stated: for the query `"analyze data"` the
expansion is non-trivial, yet the text the pipeline hands to retrieval is the
raw query, not the expanded one. -/
theorem claim_c3_counterexample :
    ragRetrievalText (S ("analyze data")) = S ("analyze data") ∧
    (preprocessQuery (S ("analyze data"))).processedText =
      S ("analyze data examine study review information statistics metrics") ∧
    ragRetrievalText (S ("analyze data")) ≠
      (preprocessQuery (S ("analyze data"))).processedText := by
  refine ⟨by decide, by decide, by decide⟩

lemma rerankScore_closed (q : Str) (c : QueryResult) :
    rerankScore q c = c.similarity + 0.2 * keywordOverlapRatio q c +
      typeBonus q c + 0.05 * lengthScore c := by
  unfold rerankScore typeBonus
  ring

/-- Claim C8, amended: every reranked candidate's combined score equals
`similarity + 0.2·overlap + type_bonus + 0.05·length_score`, where the type
bonus itself is 0.1 (the code adds the bonus once, not scaled by a further
0.1), and the output is sorted by combined score descending. -/
theorem claim_c8 (q : Str) (chunks : List QueryResult) :
    rerank q chunks =
      List.insertionSort rrDesc (chunks.map (fun c =>
        ⟨c, c.similarity + 0.2 * keywordOverlapRatio q c + typeBonus q c +
          0.05 * lengthScore c⟩)) ∧
    List.Sorted rrDesc (rerank q chunks) := by
  constructor
  · unfold rerank
    congr 1
    refine List.map_congr_left ?_
    intro c _
    rw [rerankScore_closed]
  · unfold rerank
    exact List.sorted_insertionSort rrDesc _

lemma lengthScore_tableChunk : lengthScore tableChunk = 0.7 := by
  unfold lengthScore tableChunk
  rw [show ((List.length ([] : Str) : ℝ) - 300) = -300 by norm_num]
  rw [abs_neg, abs_of_nonneg (by norm_num : (0 : ℝ) ≤ 300)]
  norm_num

lemma overlap_tableChunk : keywordOverlapRatio (S ("table")) tableChunk = 0 := by
  unfold keywordOverlapRatio tableChunk
  dsimp only
  rw [show ((splitWS (lowerStr (S ("table")))).filter
    (fun w => (splitWS (lowerStr ([] : Str))).contains w)).length = 0 from by decide]
  norm_num

lemma typeBonus_tableChunk : typeBonus (S ("table")) tableChunk = 0.1 := by
  unfold typeBonus tableChunk
  rw [if_pos ⟨by decide, rfl⟩]

/-- Counterexample to claim C8 as stated: for the query `"table"` and the
`visual_context` candidate `tableChunk`, the code's combined score is 0.135,
while the claimed formula `similarity + 0.2·overlap + 0.1·type_bonus +
0.05·length_score` with `type_bonus = 0.1` gives 0.045. -/
theorem claim_c8_counterexample :
    (rerank (S ("table")) [tableChunk]).map (fun c => c.rerankedScore) = [(0.135 : ℝ)] ∧
    typeBonus (S ("table")) tableChunk = 0.1 ∧
    (tableChunk.similarity + 0.2 * keywordOverlapRatio (S ("table")) tableChunk +
      0.1 * typeBonus (S ("table")) tableChunk +
      0.05 * lengthScore tableChunk) = 0.045 ∧
    ((0.135 : ℝ) ≠ 0.045) := by
  have hscore : rerankScore (S ("table")) tableChunk = 0.135 := by
    rw [rerankScore_closed, overlap_tableChunk, typeBonus_tableChunk, lengthScore_tableChunk]
    show tableChunk.similarity + _ + _ + _ = _
    rw [show tableChunk.similarity = 0 from rfl]
    norm_num
  refine ⟨?_, typeBonus_tableChunk, ?_, by norm_num⟩
  · unfold rerank
    rw [List.map_singleton]
    rw [show List.insertionSort rrDesc [(⟨tableChunk, rerankScore (S ("table")) tableChunk⟩ :
      RerankedChunk)] = [⟨tableChunk, rerankScore (S ("table")) tableChunk⟩] by
        simp [List.insertionSort, List.orderedInsert]]
    rw [List.map_singleton, hscore]
  · rw [overlap_tableChunk, typeBonus_tableChunk, lengthScore_tableChunk]
    rw [show tableChunk.similarity = 0 from rfl]
    norm_num

lemma faithfulness_range (answer : GeneratedAnswer) (context : Str) :
    0 ≤ calculateFaithfulness answer context ∧ calculateFaithfulness answer context ≤ 1 := by
  unfold calculateFaithfulness
  split
  · norm_num
  · dsimp only
    split
    · exact filter_ratio_range [] _
    · exact filter_ratio_range _ _

lemma answerRelevancy_range (answer : GeneratedAnswer) (sources : List SourceRef)
    (hs : ∀ s ∈ sources, 0 ≤ s.similarity ∧ s.similarity ≤ 1)
    (hc0 : 0 ≤ answer.confidence) (hc1 : answer.confidence ≤ 1) :
    0 ≤ calculateAnswerRelevancy answer sources ∧
      calculateAnswerRelevancy answer sources ≤ 1 := by
  unfold calculateAnswerRelevancy
  split
  · norm_num
  · rename_i hne
    dsimp only
    have hn : (0 : ℝ) < (sources.length : ℝ) := by
      have hz : sources.length ≠ 0 := hne
      exact_mod_cast Nat.pos_of_ne_zero hz
    have hsum0 : 0 ≤ (sources.map (fun s => s.similarity)).sum := by
      apply List.sum_nonneg
      intro x hx
      obtain ⟨s, hsm, rfl⟩ := List.mem_map.1 hx
      exact (hs s hsm).1
    have hsum1 : (sources.map (fun s => s.similarity)).sum ≤ (sources.length : ℝ) := by
      have h := List.sum_le_card_nsmul (sources.map (fun s => s.similarity)) 1 ?_
      · simpa [nsmul_eq_mul] using h
      · intro x hx
        obtain ⟨s, hsm, rfl⟩ := List.mem_map.1 hx
        exact (hs s hsm).2
    have havg0 : 0 ≤ (sources.map (fun s => s.similarity)).sum / (sources.length : ℝ) :=
      div_nonneg hsum0 (le_of_lt hn)
    have havg1 : (sources.map (fun s => s.similarity)).sum / (sources.length : ℝ) ≤ 1 := by
      rw [div_le_one hn]
      exact hsum1
    by_cases hcz : answer.confidence = 0
    · rw [if_pos hcz]
      constructor <;> linarith
    · rw [if_neg hcz]
      constructor <;> linarith

lemma contextRecall_range (sources : List SourceRef) (context : Str) :
    0 ≤ calculateContextRecall sources context ∧
      calculateContextRecall sources context ≤ 1 := by
  unfold calculateContextRecall
  split
  · norm_num
  · rename_i hne
    dsimp only
    have hn : 0 < sources.length := Nat.pos_of_ne_zero hne
    rw [if_pos hn]
    constructor
    · positivity
    · rw [div_le_one (by exact_mod_cast hn)]
      exact_mod_cast List.length_filter_le _ _

lemma cpStep_fold (l : List SourceRef) : ∀ (n : ℕ) (cum : ℝ) (rf : ℕ), rf ≤ n →
    ((l.enumFrom n).foldl cpStep (cum, rf)).2 =
        rf + (l.filter (fun s => decide ((0.5 : ℝ) < s.similarity))).length ∧
    cum ≤ ((l.enumFrom n).foldl cpStep (cum, rf)).1 ∧
    ((l.enumFrom n).foldl cpStep (cum, rf)).1 ≤
      cum + ((l.filter (fun s => decide ((0.5 : ℝ) < s.similarity))).length : ℝ) := by
  induction l with
  | nil => intro n cum rf _; simp [List.enumFrom]
  | cons s l ih =>
    intro n cum rf hrf
    rw [List.enumFrom_cons, List.foldl_cons]
    by_cases hs : (0.5 : ℝ) < s.similarity
    · have hstep : cpStep (cum, rf) (n, s) =
          (cum + ((rf + 1 : ℕ) : ℝ) / ((n + 1 : ℕ) : ℝ), rf + 1) := by
        simp [cpStep, hs]
      rw [hstep]
      obtain ⟨h1, h2, h3⟩ := ih (n + 1) (cum + ((rf + 1 : ℕ) : ℝ) / ((n + 1 : ℕ) : ℝ))
        (rf + 1) (by omega)
      have hfil : (List.filter (fun s => decide ((0.5 : ℝ) < s.similarity)) (s :: l)).length =
          (List.filter (fun s => decide ((0.5 : ℝ) < s.similarity)) l).length + 1 := by
        simp [List.filter_cons, hs]
      have ht0 : (0 : ℝ) ≤ ((rf + 1 : ℕ) : ℝ) / ((n + 1 : ℕ) : ℝ) := by positivity
      have ht1 : ((rf + 1 : ℕ) : ℝ) / ((n + 1 : ℕ) : ℝ) ≤ 1 := by
        rw [div_le_one (by exact_mod_cast Nat.succ_pos n)]
        exact_mod_cast Nat.succ_le_succ hrf
      refine ⟨by rw [h1, hfil]; omega, by linarith, ?_⟩
      rw [hfil]
      push_cast at h3 ht0 ht1 ⊢
      linarith
    · have hstep : cpStep (cum, rf) (n, s) = (cum, rf) := by
        simp [cpStep, hs]
      rw [hstep]
      obtain ⟨h1, h2, h3⟩ := ih (n + 1) cum rf (by omega)
      have hfil : (List.filter (fun s => decide ((0.5 : ℝ) < s.similarity)) (s :: l)).length =
          (List.filter (fun s => decide ((0.5 : ℝ) < s.similarity)) l).length := by
        simp [List.filter_cons, hs]
      exact ⟨by rw [h1, hfil], h2, by rw [hfil]; exact h3⟩

lemma contextPrecision_range (sources : List SourceRef) :
    0 ≤ calculateContextPrecision sources ∧ calculateContextPrecision sources ≤ 1 := by
  unfold calculateContextPrecision
  split
  · norm_num
  · dsimp only
    obtain ⟨h1, h2, h3⟩ := cpStep_fold sources 0 0 0 (le_refl 0)
    rw [show sources.enum = sources.enumFrom 0 from rfl]
    split
    · rename_i hrel
      have hpos : (0 : ℝ) <
          ((sources.filter (fun s => decide ((0.5 : ℝ) < s.similarity))).length : ℝ) := by
        exact_mod_cast hrel
      constructor
      · exact div_nonneg (by linarith) (le_of_lt hpos)
      · rw [div_le_one hpos]
        linarith
    · norm_num

/-- Claim C5: all four evaluation metrics take values in `[0, 1]`; answer
relevancy does so for arbitrary valid inputs, i.e. source similarities and
answer confidence in `[0, 1]` (the ranges the data model assigns them), while
faithfulness, context recall, and context precision need no hypotheses at
all. -/
theorem claim_c5 :
    (∀ (answer : GeneratedAnswer) (context : Str),
      0 ≤ calculateFaithfulness answer context ∧ calculateFaithfulness answer context ≤ 1) ∧
    (∀ (answer : GeneratedAnswer) (sources : List SourceRef),
      (∀ s ∈ sources, 0 ≤ s.similarity ∧ s.similarity ≤ 1) →
      0 ≤ answer.confidence → answer.confidence ≤ 1 →
      0 ≤ calculateAnswerRelevancy answer sources ∧
        calculateAnswerRelevancy answer sources ≤ 1) ∧
    (∀ (sources : List SourceRef) (context : Str),
      0 ≤ calculateContextRecall sources context ∧
        calculateContextRecall sources context ≤ 1) ∧
    (∀ sources : List SourceRef,
      0 ≤ calculateContextPrecision sources ∧ calculateContextPrecision sources ≤ 1) :=
  ⟨faithfulness_range, answerRelevancy_range, contextRecall_range, contextPrecision_range⟩

/-- Witness for claim C5 at a one-source list of similarity 1/2 and an answer
of confidence 1/2. -/
theorem claim_c5_witness :
    ((∀ s ∈ witnessSources, 0 ≤ s.similarity ∧ s.similarity ≤ 1) ∧
      0 ≤ witnessAnswer.confidence ∧ witnessAnswer.confidence ≤ 1) ∧
    (0 ≤ calculateFaithfulness witnessAnswer (S ("ok")) ∧
      calculateFaithfulness witnessAnswer (S ("ok")) ≤ 1) ∧
    (0 ≤ calculateAnswerRelevancy witnessAnswer witnessSources ∧
      calculateAnswerRelevancy witnessAnswer witnessSources ≤ 1) ∧
    (0 ≤ calculateContextRecall witnessSources (S ("ok")) ∧
      calculateContextRecall witnessSources (S ("ok")) ≤ 1) ∧
    (0 ≤ calculateContextPrecision witnessSources ∧
      calculateContextPrecision witnessSources ≤ 1) := by
  have hs : ∀ s ∈ witnessSources, 0 ≤ s.similarity ∧ s.similarity ≤ 1 := by
    intro s hsm
    simp only [witnessSources, List.mem_singleton] at hsm
    subst hsm
    norm_num
  have hc0 : 0 ≤ witnessAnswer.confidence := by
    show (0 : ℝ) ≤ 1 / 2
    norm_num
  have hc1 : witnessAnswer.confidence ≤ 1 := by
    show (1 : ℝ) / 2 ≤ 1
    norm_num
  exact ⟨⟨hs, hc0, hc1⟩,
    claim_c5.1 witnessAnswer (S ("ok")),
    claim_c5.2.1 witnessAnswer witnessSources hs hc0 hc1,
    claim_c5.2.2.1 witnessSources (S ("ok")),
    claim_c5.2.2.2 witnessSources⟩

/-- Claim C10: with an empty query history, `getPerformanceReport` divides the
zero sums by the zero window length, so all four averaged detailed metrics are
the non-finite `NaN` (modeled `none`) rather than an error or zeros; the
latency buckets are all 0, the query-type object is empty, and the overview is
passed through unchanged. -/
theorem claim_c10 (pm : PerfMetrics) :
    (getPerformanceReport ⟨[], pm⟩).detailedMetrics = ⟨none, none, none, none⟩ ∧
    (getPerformanceReport ⟨[], pm⟩).latencyDistribution = ⟨0, 0, 0⟩ ∧
    (getPerformanceReport ⟨[], pm⟩).queryTypes = [] ∧
    (getPerformanceReport ⟨[], pm⟩).overview = pm := by
  simp [getPerformanceReport, takeLast, jsDiv, getLatencyDistribution,
    getQueryTypeDistribution]
